import Mathlib

/-!
Shallow embedding of the slice-and-dot layout engine of the calendar app
(`useSlicesWithEvents` in `src/src/views/FourWeekView.vue`, composable part,
and the inline `slicesWithEvents` of `src/src/views/SevenDayView.vue`).

JavaScript numbers are modelled as exact rationals.  The transcendental
helpers (`Math.PI`, `Math.cos`, `Math.sin`) are bundled in a `TrigModel`
parameter: the engine only feeds angles to them and places their values in
the output, so every claim below is settled for an arbitrary model.
-/

namespace CalendarApp

/-- `CalendarEvent` record (`src/src/views/FourWeekView.vue`, interface
`CalendarEvent`): id, slice index, name, dot color. -/
structure CalendarEvent where
  id : String
  sliceIndex : Int
  name : String
  color : String
deriving DecidableEq

/-- `EventDot` record: id, absolute center coordinates, fill color and
visual radius of one marker. -/
structure EventDot where
  id : String
  cx : ℚ
  cy : ℚ
  fill : String
  radius : ℚ
deriving DecidableEq

/-- One command of an SVG path string.  The source builds the `d` attribute
by joining the textual forms of exactly these commands; the embedding keeps
them structured so the flags and coordinates stay visible. -/
inductive PathCmd where
  | moveTo (x y : ℚ)
  | lineTo (x y : ℚ)
  | arcTo (rx ry : ℚ) (xRot largeArc sweep : ℕ) (x y : ℚ)
  | closePath
deriving DecidableEq

/-- `SliceData` record (`src/src/types/SliceData.ts`). -/
structure SliceData where
  id : String
  d : List PathCmd
  eventDots : List EventDot
  originalEvents : List CalendarEvent
deriving DecidableEq

/-- `DotPlacement` configuration record. -/
structure DotPlacement where
  startRadiusFactor : ℚ
  radiusIncrementFactor : ℚ
  maxDotsPerSlice : ℕ
deriving DecidableEq

/-- Abstract model of `Math.PI`, `Math.cos`, `Math.sin` over the rational
number model of JavaScript floats. -/
structure TrigModel where
  pi : ℚ
  cos : ℚ → ℚ
  sin : ℚ → ℚ

/-- `toRadians` helper: `deg * (Math.PI / 180)`. -/
def toRadians (M : TrigModel) (deg : ℚ) : ℚ :=
  deg * (M.pi / 180)

/-- A degenerate concrete trig model, used only to instantiate closed
witness statements (every claim is proved for an arbitrary model). -/
def trig0 : TrigModel :=
  { pi := 0, cos := fun _ => 0, sin := fun _ => 0 }

/-- Radial distance of the candidate with index `idx`:
`radius * (dotPlacement.startRadiusFactor + idx * dotPlacement.radiusIncrementFactor)`. -/
def distanceFromCenter (radius : ℚ) (dp : DotPlacement) (idx : ℕ) : ℚ :=
  radius * (dp.startRadiusFactor + (idx : ℚ) * dp.radiusIncrementFactor)

/-- The `forEach` loop over the capped candidate list
(`sliceEvents.slice(0, maxDotsPerSlice).forEach((ev, idx) => ...)`):
`idx` is the running candidate index, a dot is pushed exactly when
`dist < radius * 0.88`. -/
def dotsAux (M : TrigModel) (center radius dotVisualRadius midRad : ℚ)
    (dp : DotPlacement) : ℕ → List CalendarEvent → List EventDot
  | _, [] => []
  | idx, ev :: rest =>
    let dist := distanceFromCenter radius dp idx
    if dist < radius * 0.88 then
      { id := ev.id
        cx := center + dist * M.cos midRad
        cy := center + dist * M.sin midRad
        fill := ev.color
        radius := dotVisualRadius } ::
        dotsAux M center radius dotVisualRadius midRad dp (idx + 1) rest
    else
      dotsAux M center radius dotVisualRadius midRad dp (idx + 1) rest

/-- Body of the slice loop of `useSlicesWithEvents` for slice index `i`:
wedge path, per-slice event bucket and dot list. -/
def sliceFor (M : TrigModel) (events : List CalendarEvent) (numberOfSlices : Int)
    (viewBoxSize : ℚ) (dp : DotPlacement) (i : ℕ) : SliceData :=
  let center := viewBoxSize / 2
  let radius := viewBoxSize / 2 * 0.95
  let dotVisualRadius := viewBoxSize * 0.018
  let anglePerSlice := 360 / (numberOfSlices : ℚ)
  let offset : ℚ := -90
  let startDeg := (i : ℚ) * anglePerSlice + offset
  let endDeg := ((i : ℚ) + 1) * anglePerSlice + offset
  let startRad := toRadians M startDeg
  let endRad := toRadians M endDeg
  let x1 := center + radius * M.cos startRad
  let y1 := center + radius * M.sin startRad
  let x2 := center + radius * M.cos endRad
  let y2 := center + radius * M.sin endRad
  let d := [PathCmd.moveTo center center, PathCmd.lineTo x1 y1,
            PathCmd.arcTo radius radius 0 0 1 x2 y2, PathCmd.closePath]
  let sliceEvents := events.filter (fun e => e.sliceIndex == (i : Int))
  let midRad := toRadians M (startDeg + anglePerSlice / 2)
  { id := "slice-" ++ toString i
    d := d
    eventDots := dotsAux M center radius dotVisualRadius midRad dp 0
      (sliceEvents.take dp.maxDotsPerSlice)
    originalEvents := sliceEvents }

/-- The composable `useSlicesWithEvents`
(`src/src/views/FourWeekView.vue`, exported composable): the
`for (let i = 0; i < numberOfSlices; i++)` loop pushing one `SliceData`
per iteration. -/
def useSlicesWithEvents (M : TrigModel) (events : List CalendarEvent)
    (numberOfSlices : Int) (viewBoxSize : ℚ) (dp : DotPlacement) : List SliceData :=
  (List.range numberOfSlices.toNat).map (sliceFor M events numberOfSlices viewBoxSize dp)

/-- `largeArcFlag` computation of the inline views
(`src/src/views/SevenDayView.vue` line 77):
`anglePerSliceDegrees <= 180 ? 0 : 1`. -/
def largeArcFlag (anglePerSlice : ℚ) : ℕ :=
  if anglePerSlice ≤ 180 then 0 else 1

/-- Wedge path as built by the inline view implementation
(`src/src/views/SevenDayView.vue` lines 66-85), whose arc uses the
conditional `largeArcFlag`. -/
def viewWedgePath (M : TrigModel) (numberOfSlices : Int) (viewBoxSize : ℚ)
    (i : ℕ) : List PathCmd :=
  let center := viewBoxSize / 2
  let radius := viewBoxSize / 2 * 0.95
  let anglePerSlice := 360 / (numberOfSlices : ℚ)
  let offset : ℚ := -90
  let startDeg := (i : ℚ) * anglePerSlice + offset
  let endDeg := ((i : ℚ) + 1) * anglePerSlice + offset
  let x1 := center + radius * M.cos (toRadians M startDeg)
  let y1 := center + radius * M.sin (toRadians M startDeg)
  let x2 := center + radius * M.cos (toRadians M endDeg)
  let y2 := center + radius * M.sin (toRadians M endDeg)
  [PathCmd.moveTo center center, PathCmd.lineTo x1 y1,
   PathCmd.arcTo radius radius 0 (largeArcFlag anglePerSlice) 1 x2 y2,
   PathCmd.closePath]

/-- Wedge path of the composable, written out as a standalone projection
(the same lets as in `sliceFor`; the arc flags are the literal `0 0 1` of
the source string). -/
def engineWedge (M : TrigModel) (numberOfSlices : Int) (viewBoxSize : ℚ)
    (i : ℕ) : List PathCmd :=
  let center := viewBoxSize / 2
  let radius := viewBoxSize / 2 * 0.95
  let anglePerSlice := 360 / (numberOfSlices : ℚ)
  let offset : ℚ := -90
  let startDeg := (i : ℚ) * anglePerSlice + offset
  let endDeg := ((i : ℚ) + 1) * anglePerSlice + offset
  let x1 := center + radius * M.cos (toRadians M startDeg)
  let y1 := center + radius * M.sin (toRadians M startDeg)
  let x2 := center + radius * M.cos (toRadians M endDeg)
  let y2 := center + radius * M.sin (toRadians M endDeg)
  [PathCmd.moveTo center center, PathCmd.lineTo x1 y1,
   PathCmd.arcTo radius radius 0 0 1 x2 y2, PathCmd.closePath]

/-- Spec-side dot list, following the spec's wording of step 7: for
candidate index `k` (0-based), `distance = sliceRadius * (startRadiusFactor
+ k * radiusIncrementFactor)`; if `distance < 0.88 * sliceRadius`, emit a
dot at `(center + distance * cos midAngle, center + distance * sin midAngle)`
with the event's color and fixed radius; otherwise omit this candidate and
continue with the rest. -/
def specDotList (M : TrigModel) (center radius dotVisualRadius midRad : ℚ)
    (dp : DotPlacement) (candidates : List CalendarEvent) : List EventDot :=
  candidates.enum.filterMap fun p =>
    let distance := radius * (dp.startRadiusFactor + (p.1 : ℚ) * dp.radiusIncrementFactor)
    if distance < 0.88 * radius then
      some { id := p.2.id
             cx := center + distance * M.cos midRad
             cy := center + distance * M.sin midRad
             fill := p.2.color
             radius := dotVisualRadius }
    else none

/-- Spec-side dot list of slice `i`, assembled from the spec's steps 5-7:
candidates are the events of slice `i` in input order, capped at
`maxDotsPerSlice`; `midAngle = startAngle + anglePerSlice / 2`. -/
def specSliceDots (M : TrigModel) (events : List CalendarEvent) (numberOfSlices : Int)
    (viewBoxSize : ℚ) (dp : DotPlacement) (i : ℕ) : List EventDot :=
  specDotList M (viewBoxSize / 2) (viewBoxSize / 2 * 0.95) (viewBoxSize * 0.018)
    (toRadians M ((i : ℚ) * (360 / (numberOfSlices : ℚ)) + -90 +
      360 / (numberOfSlices : ℚ) / 2))
    dp
    ((events.filter (fun e => e.sliceIndex == (i : Int))).take dp.maxDotsPerSlice)

/-- The dot-placement configuration used at every call site of the source
(`startRadiusFactor: 0.45, radiusIncrementFactor: 0.15, maxDotsPerSlice: 3`). -/
def dp3 : DotPlacement :=
  { startRadiusFactor := 0.45, radiusIncrementFactor := 0.15, maxDotsPerSlice := 3 }

/-- The sample event list of `FourWeekView.vue`. -/
def sampleEvents4 : List CalendarEvent :=
  [{ id := "evtWeek1", sliceIndex := 0, name := "Week 1 Planning", color := "tomato" },
   { id := "evtWeek2", sliceIndex := 1, name := "Week 2 Sprint", color := "gold" },
   { id := "evtWeek3", sliceIndex := 1, name := "Mid-Sprint Review", color := "limegreen" },
   { id := "evtWeek4", sliceIndex := 3, name := "Week 4 Wrap-up", color := "deepskyblue" }]

/-- A dot-placement configuration with negative factors, invalid according
to the spec's error conditions. -/
def badDp : DotPlacement :=
  { startRadiusFactor := -1, radiusIncrementFactor := -2, maxDotsPerSlice := 3 }

/-- Large-arc flags occurring in a path, in order. -/
def arcFlags (d : List PathCmd) : List ℕ :=
  d.filterMap fun c =>
    match c with
    | PathCmd.arcTo _ _ _ la _ _ _ => some la
    | _ => none

/-- The claim C7's precondition allows `radiusIncrementFactor = 0`: a
finite, non-negative configuration. -/
def dpZero : DotPlacement :=
  { startRadiusFactor := 0.45, radiusIncrementFactor := 0, maxDotsPerSlice := 3 }

/-- Two events in the same slice, used for the C7 counterexample. -/
def c7Events : List CalendarEvent :=
  [{ id := "c7a", sliceIndex := 0, name := "a", color := "red" },
   { id := "c7b", sliceIndex := 0, name := "b", color := "blue" }]

/-- The hypothetical configuration of the spec's Scenario B:
`maxDotsPerSlice = 4`. -/
def dp4 : DotPlacement :=
  { startRadiusFactor := 0.45, radiusIncrementFactor := 0.15, maxDotsPerSlice := 4 }

/-- Four events at slice index 9, as in the spec's Scenario A/B. -/
def c8Events : List CalendarEvent :=
  [{ id := "c8a", sliceIndex := 9, name := "a", color := "red" },
   { id := "c8b", sliceIndex := 9, name := "b", color := "gold" },
   { id := "c8c", sliceIndex := 9, name := "c", color := "limegreen" },
   { id := "c8d", sliceIndex := 9, name := "d", color := "blue" }]

example : (200 : ℚ) / 2 * 0.95 = 95 := by norm_num

example :
    (useSlicesWithEvents trig0 sampleEvents4 4 200 dp3).length = 4 := by
  simp [useSlicesWithEvents]

example :
    ((useSlicesWithEvents trig0 sampleEvents4 4 200 dp3).map
        (fun s => s.eventDots.map EventDot.id))
      = [["evtWeek1"], ["evtWeek2", "evtWeek3"], [], ["evtWeek4"]] := by
  norm_num [useSlicesWithEvents, sliceFor, dotsAux, distanceFromCenter, dp3, sampleEvents4,
    List.range, List.range.loop, List.filter]

/-! ## Helper lemmas about the engine -/

theorem length_useSlicesWithEvents (M : TrigModel) (events : List CalendarEvent)
    (n : Int) (vbs : ℚ) (dp : DotPlacement) :
    (useSlicesWithEvents M events n vbs dp).length = n.toNat := by
  simp [useSlicesWithEvents]

theorem getElem_useSlicesWithEvents (M : TrigModel) (events : List CalendarEvent)
    (n : Int) (vbs : ℚ) (dp : DotPlacement) (i : ℕ)
    (h : i < (useSlicesWithEvents M events n vbs dp).length) :
    (useSlicesWithEvents M events n vbs dp)[i] = sliceFor M events n vbs dp i := by
  simp [useSlicesWithEvents]

theorem dotsAux_length_le (M : TrigModel) (c r v m : ℚ) (dp : DotPlacement) :
    ∀ (idx : ℕ) (l : List CalendarEvent),
      (dotsAux M c r v m dp idx l).length ≤ l.length := by
  intro idx l
  induction l generalizing idx with
  | nil => simp [dotsAux]
  | cons ev rest ih =>
    simp only [dotsAux]
    split
    · simpa using ih (idx + 1)
    · exact Nat.le_succ_of_le (ih (idx + 1))

theorem dotsAux_eq_filterMap (M : TrigModel) (c r v m : ℚ) (dp : DotPlacement) :
    ∀ (idx : ℕ) (l : List CalendarEvent),
      dotsAux M c r v m dp idx l
        = (List.enumFrom idx l).filterMap (fun p =>
            let distance := r * (dp.startRadiusFactor + (p.1 : ℚ) * dp.radiusIncrementFactor)
            if distance < 0.88 * r then
              some { id := p.2.id
                     cx := c + distance * M.cos m
                     cy := c + distance * M.sin m
                     fill := p.2.color
                     radius := v }
            else none) := by
  intro idx l
  induction l generalizing idx with
  | nil => rfl
  | cons ev rest ih =>
    have hcond : ∀ q : ℚ, ((q < 0.88 * r) = (q < r * 0.88)) := fun q => by rw [mul_comm]
    by_cases hlt : r * (dp.startRadiusFactor + (idx : ℚ) * dp.radiusIncrementFactor) < r * 0.88
    · simp [dotsAux, distanceFromCenter, List.filterMap_cons, hcond, hlt, ih (idx + 1)]
    · simp [dotsAux, distanceFromCenter, List.filterMap_cons, hcond, hlt, ih (idx + 1)]

/-! ## The claims -/

/-- C1: for every slice, the dot list produced by the engine is exactly the
spec's candidate processing: take at most `maxDotsPerSlice` events of the
slice in input order, and for candidate index `k` emit a dot at
`(center + distance * cos midAngle, center + distance * sin midAngle)` with
`distance = sliceRadius * (startRadiusFactor + k * radiusIncrementFactor)`
exactly when `distance < 0.88 * sliceRadius`, with the event's color and
fixed visual radius `viewBoxSize * 0.018`, dropped candidates being skipped
individually without stopping the processing of the remaining ones. -/
theorem c1_dots_follow_spec (M : TrigModel) (events : List CalendarEvent)
    (n : Int) (vbs : ℚ) (dp : DotPlacement) (i : ℕ)
    (h : i < (useSlicesWithEvents M events n vbs dp).length) :
    ((useSlicesWithEvents M events n vbs dp)[i]).eventDots
      = specSliceDots M events n vbs dp i := by
  rw [getElem_useSlicesWithEvents]
  simp only [sliceFor, specSliceDots, specDotList, List.enum]
  exact dotsAux_eq_filterMap M (vbs / 2) (vbs / 2 * 0.95) (vbs * 0.018)
    (toRadians M ((i : ℚ) * (360 / (n : ℚ)) + -90 + 360 / (n : ℚ) / 2)) dp 0 _

/-- C1 witness: concrete instance of the refinement on the FourWeekView
sample data. -/
theorem c1_dots_follow_spec_witness :
    ((useSlicesWithEvents trig0 sampleEvents4 4 200 dp3).get ⟨1, by decide⟩).eventDots
      = specSliceDots trig0 sampleEvents4 4 200 dp3 1 :=
  c1_dots_follow_spec trig0 sampleEvents4 4 200 dp3 1 (by decide)

/-- C2: for a positive slice count and positive view box size the engine
returns exactly `numberOfSlices` entries, and the entry at position `i`
carries the id `"slice-" ++ toString i` (ascending slice order). -/
theorem c2_length_and_ids (M : TrigModel) (events : List CalendarEvent)
    (n : Int) (vbs : ℚ) (dp : DotPlacement) (hn : 0 < n) (_hv : (0 : ℚ) < vbs) :
    (((useSlicesWithEvents M events n vbs dp).length : Int) = n) ∧
    ∀ i (h : i < (useSlicesWithEvents M events n vbs dp).length),
      ((useSlicesWithEvents M events n vbs dp)[i]).id = "slice-" ++ toString i := by
  constructor
  · rw [length_useSlicesWithEvents]
    exact Int.toNat_of_nonneg hn.le
  · intro i h
    rw [getElem_useSlicesWithEvents]
    rfl

/-- C2 witness: concrete instance with 3 slices. -/
theorem c2_length_and_ids_witness :
    (((useSlicesWithEvents trig0 [] 3 200 dp3).length : Int) = 3) ∧
    ((useSlicesWithEvents trig0 [] 3 200 dp3).get ⟨0, by decide⟩).id = "slice-0" := by
  have h := c2_length_and_ids trig0 [] 3 200 dp3 (by decide) (by norm_num)
  exact ⟨h.1, h.2 0 (by decide)⟩

/-- C3: slice `i` of the output holds exactly the input events whose
`sliceIndex` equals `i`, in input order; an in-range event appears in its
own slice and in no other; an out-of-range event appears in no slice's
`originalEvents` (silent exclusion). -/
theorem c3_bucketing (M : TrigModel) (events : List CalendarEvent)
    (n : Int) (vbs : ℚ) (dp : DotPlacement) :
    (∀ i (h : i < (useSlicesWithEvents M events n vbs dp).length),
      ((useSlicesWithEvents M events n vbs dp)[i]).originalEvents
        = events.filter (fun e => e.sliceIndex == (i : Int))) ∧
    (∀ e, e ∈ events → 0 ≤ e.sliceIndex → e.sliceIndex < n →
      ∃ h : e.sliceIndex.toNat < (useSlicesWithEvents M events n vbs dp).length,
        e ∈ ((useSlicesWithEvents M events n vbs dp)[e.sliceIndex.toNat]).originalEvents) ∧
    (∀ e, e ∈ events → ∀ i (h : i < (useSlicesWithEvents M events n vbs dp).length),
      (e ∈ ((useSlicesWithEvents M events n vbs dp)[i]).originalEvents
        ↔ e.sliceIndex = (i : Int))) ∧
    (∀ e, e ∈ events → (e.sliceIndex < 0 ∨ n ≤ e.sliceIndex) →
      ∀ i (h : i < (useSlicesWithEvents M events n vbs dp).length),
        e ∉ ((useSlicesWithEvents M events n vbs dp)[i]).originalEvents) := by
  have horig : ∀ i (h : i < (useSlicesWithEvents M events n vbs dp).length),
      ((useSlicesWithEvents M events n vbs dp)[i]).originalEvents
        = events.filter (fun e => e.sliceIndex == (i : Int)) := by
    intro i h
    rw [getElem_useSlicesWithEvents]
    rfl
  have hmem : ∀ e, e ∈ events → ∀ i (h : i < (useSlicesWithEvents M events n vbs dp).length),
      (e ∈ ((useSlicesWithEvents M events n vbs dp)[i]).originalEvents
        ↔ e.sliceIndex = (i : Int)) := by
    intro e he i h
    rw [horig i h, List.mem_filter]
    simp [he]
  refine ⟨horig, ?_, hmem, ?_⟩
  · intro e he h0 hn
    have hlen : e.sliceIndex.toNat < (useSlicesWithEvents M events n vbs dp).length := by
      rw [length_useSlicesWithEvents]
      omega
    refine ⟨hlen, ?_⟩
    rw [hmem e he e.sliceIndex.toNat hlen]
    exact (Int.toNat_of_nonneg h0).symm
  · intro e he hout i h
    rw [hmem e he i h]
    intro heq
    rcases hout with hneg | hge
    · have : (0 : Int) ≤ i := Int.ofNat_nonneg i
      omega
    · have hi : (i : Int) < n := by
        have := h
        rw [length_useSlicesWithEvents] at this
        have h2 : (i : Int) < (n.toNat : Int) := by exact_mod_cast this
        calc (i : Int) < (n.toNat : Int) := h2
          _ ≤ n := by
            rcases le_or_lt 0 n with hn0 | hn0
            · rw [Int.toNat_of_nonneg hn0]
            · omega
      omega

/-- C3 witness: on the FourWeekView sample data, the event `evtWeek2`
(slice index 1) is a member of slice 1's `originalEvents`. -/
theorem c3_bucketing_witness :
    { id := "evtWeek2", sliceIndex := 1, name := "Week 2 Sprint", color := "gold" }
      ∈ ((useSlicesWithEvents trig0 sampleEvents4 4 200 dp3).get
          ⟨1, by decide⟩).originalEvents :=
  ((c3_bucketing trig0 sampleEvents4 4 200 dp3).2.2.1
    { id := "evtWeek2", sliceIndex := 1, name := "Week 2 Sprint", color := "gold" }
    (by decide) 1 (by decide)).mpr (by decide)

/-- C4: the dot list of every slice is capped, never padded: its length is
at most `maxDotsPerSlice` and at most the length of the slice's
`originalEvents`. -/
theorem c4_dots_capped (M : TrigModel) (events : List CalendarEvent)
    (n : Int) (vbs : ℚ) (dp : DotPlacement) (i : ℕ)
    (h : i < (useSlicesWithEvents M events n vbs dp).length) :
    ((useSlicesWithEvents M events n vbs dp)[i]).eventDots.length ≤ dp.maxDotsPerSlice ∧
    ((useSlicesWithEvents M events n vbs dp)[i]).eventDots.length
      ≤ ((useSlicesWithEvents M events n vbs dp)[i]).originalEvents.length := by
  rw [getElem_useSlicesWithEvents]
  simp only [sliceFor]
  constructor
  · exact le_trans (dotsAux_length_le _ _ _ _ _ _ _ _) (List.length_take_le _ _)
  · exact le_trans (dotsAux_length_le _ _ _ _ _ _ _ _) (List.length_take_le' _ _)

/-- C4 witness: concrete instance on the FourWeekView sample data. -/
theorem c4_dots_capped_witness :
    ((useSlicesWithEvents trig0 sampleEvents4 4 200 dp3).get
        ⟨1, by decide⟩).eventDots.length ≤ dp3.maxDotsPerSlice ∧
    ((useSlicesWithEvents trig0 sampleEvents4 4 200 dp3).get
        ⟨1, by decide⟩).eventDots.length
      ≤ ((useSlicesWithEvents trig0 sampleEvents4 4 200 dp3).get
        ⟨1, by decide⟩).originalEvents.length :=
  c4_dots_capped trig0 sampleEvents4 4 200 dp3 1 (by decide)

/-- C5 counterexample: the code performs no validation at all.  With the
invalid slice count 0 the call returns the empty list as a normal value,
and with negative radius factors (and a valid slice count) it returns a
complete 4-slice result as a normal value; no `InvalidConfiguration`
failure exists anywhere in the computation. -/
theorem c5_counterexample :
    useSlicesWithEvents trig0 sampleEvents4 0 200 badDp = [] ∧
    (useSlicesWithEvents trig0 sampleEvents4 4 200 badDp).length = 4 := by
  constructor
  · rfl
  · simp [useSlicesWithEvents]

/-- C5 amended: the computation never fails: for every input, valid or not,
it totally returns a sequence of `max(numberOfSlices, 0)` slices; a
non-positive slice count yields the empty sequence and invalid radius
factors are used as-is. -/
theorem c5_amended_no_validation (M : TrigModel) (events : List CalendarEvent)
    (n : Int) (vbs : ℚ) (dp : DotPlacement) :
    (useSlicesWithEvents M events n vbs dp).length = n.toNat := by
  simp [useSlicesWithEvents]

/-- C9: for every non-positive slice count the computation is total, raises
no error and returns the empty sequence of slices. -/
theorem c9_nonpos_gives_empty (M : TrigModel) (events : List CalendarEvent)
    (vbs : ℚ) (dp : DotPlacement) (n : Int) (h : n ≤ 0) :
    useSlicesWithEvents M events n vbs dp = [] := by
  unfold useSlicesWithEvents
  rw [Int.toNat_of_nonpos h]
  rfl

/-- C9 witness: concrete instance at `numberOfSlices = -3`. -/
theorem c9_nonpos_gives_empty_witness :
    useSlicesWithEvents trig0 sampleEvents4 (-3) 200 dp3 = [] :=
  c9_nonpos_gives_empty trig0 sampleEvents4 200 dp3 (-3) (by decide)

/-- C6 counterexample: at `numberOfSlices = 1` (so `anglePerSlice = 360 >
180`) the composable still emits large-arc-flag `0`, while the claimed
conditional rule — the one computed by the inline view implementation,
embodied in `viewWedgePath` — demands flag `1`; the produced path therefore
differs from the claimed one. -/
theorem c6_counterexample :
    ((useSlicesWithEvents trig0 [] 1 200 dp3).map (fun s => arcFlags s.d) = [[0]]) ∧
    arcFlags (viewWedgePath trig0 1 200 0) = [1] ∧
    ¬ ((useSlicesWithEvents trig0 [] 1 200 dp3).map SliceData.d
        = [viewWedgePath trig0 1 200 0]) := by
  have h1 : (useSlicesWithEvents trig0 [] 1 200 dp3).map (fun s => arcFlags s.d)
      = [[0]] := rfl
  have h2 : arcFlags (viewWedgePath trig0 1 200 0) = [1] := by
    norm_num [viewWedgePath, largeArcFlag]
    rfl
  refine ⟨h1, h2, ?_⟩
  intro hEq
  have h3 := congrArg (List.map arcFlags) hEq
  rw [List.map_map] at h3
  have h4 : (useSlicesWithEvents trig0 [] 1 200 dp3).map (arcFlags ∘ SliceData.d)
      = [[0]] := h1
  rw [h4] at h3
  simp only [List.map_cons, List.map_nil, h2] at h3
  simp at h3

/-- C6 amended: the composable's wedge path is always `move to center, line
to the start-angle point, arc with radius sliceRadius, no rotation,
large-arc-flag 0, clockwise sweep 1, to the end-angle point, close`; and
for every `numberOfSlices ≥ 2` this agrees with the inline views' wedge
path, whose large-arc-flag is the claimed conditional
`anglePerSlice ≤ 180 ? 0 : 1`. -/
theorem c6_amended_flag_zero (M : TrigModel) (events : List CalendarEvent)
    (n : Int) (vbs : ℚ) (dp : DotPlacement) :
    (∀ i (h : i < (useSlicesWithEvents M events n vbs dp).length),
      ((useSlicesWithEvents M events n vbs dp)[i]).d = engineWedge M n vbs i) ∧
    (2 ≤ n → ∀ i : ℕ, viewWedgePath M n vbs i = engineWedge M n vbs i) := by
  constructor
  · intro i h
    rw [getElem_useSlicesWithEvents]
    rfl
  · intro hn i
    have hn2 : (2 : ℚ) ≤ (n : ℚ) := by exact_mod_cast hn
    have hpos : (0 : ℚ) < (n : ℚ) := by linarith
    have hle : (360 : ℚ) / (n : ℚ) ≤ 180 := by
      rw [div_le_iff₀ hpos]
      linarith
    simp [viewWedgePath, engineWedge, largeArcFlag, hle]

/-- C6 amended witness: concrete instance at 4 slices. -/
theorem c6_amended_flag_zero_witness :
    ((useSlicesWithEvents trig0 [] 4 200 dp3).get ⟨0, by decide⟩).d
      = engineWedge trig0 4 200 0 ∧
    viewWedgePath trig0 4 200 1 = engineWedge trig0 4 200 1 :=
  ⟨(c6_amended_flag_zero trig0 [] 4 200 dp3).1 0 (by decide),
   (c6_amended_flag_zero trig0 [] 4 200 dp3).2 (by decide) 1⟩

/-- C7 counterexample: under the configuration `startRadiusFactor = 0.45`,
`radiusIncrementFactor = 0` — finite and non-negative, so allowed by the
claim's preconditions — the first two candidate distances are equal (both
pass the radial clip, and the engine indeed emits both markers), so the
radial distance is not strictly increasing in the candidate index. -/
theorem c7_counterexample :
    distanceFromCenter 95 dpZero 0 = distanceFromCenter 95 dpZero 1 ∧
    distanceFromCenter 95 dpZero 0 < 95 * 0.88 ∧
    ((useSlicesWithEvents trig0 c7Events 4 200 dpZero).map
      (fun s => s.eventDots.length)) = [2, 0, 0, 0] := by
  refine ⟨by norm_num [distanceFromCenter, dpZero],
          by norm_num [distanceFromCenter, dpZero], ?_⟩
  norm_num [useSlicesWithEvents, sliceFor, dotsAux, distanceFromCenter, dpZero, c7Events,
    List.range, List.range.loop, List.filter]

/-- C7 amended: the radial distance of the k-th marker is strictly
increasing in k provided the slice radius is positive and
`radiusIncrementFactor` is strictly positive (not merely non-negative). -/
theorem c7_amended_strict_mono (radius : ℚ) (dp : DotPlacement)
    (hr : 0 < radius) (hinc : 0 < dp.radiusIncrementFactor)
    (k1 k2 : ℕ) (hk : k1 < k2) :
    distanceFromCenter radius dp k1 < distanceFromCenter radius dp k2 := by
  unfold distanceFromCenter
  have h1 : ((k1 : ℚ)) < (k2 : ℚ) := by exact_mod_cast hk
  exact mul_lt_mul_of_pos_left
    (add_lt_add_left (mul_lt_mul_of_pos_right h1 hinc) _) hr

/-- C7 amended witness: concrete instance for the observed configuration. -/
theorem c7_amended_strict_mono_witness :
    distanceFromCenter 95 dp3 0 < distanceFromCenter 95 dp3 1 :=
  c7_amended_strict_mono 95 dp3 (by norm_num) (by norm_num [dp3]) 0 1 (by decide)

/-- C8: Scenario A and B of the spec, for an arbitrary trig model.  With
`numberOfSlices = 12`, `viewBoxSize = 200` the slice radius is 95; the
first three candidate distances are exactly 42.75, 57, 71.25, all below the
clip threshold `0.88 * 95 = 83.6`, so with `maxDotsPerSlice = 3` slice 9
renders exactly the first three dots and the fourth event is excluded by
the cap; with `maxDotsPerSlice = 4` the fourth candidate's distance is 85.5
which fails the clip, so slice 9 still renders only the first three dots. -/
theorem c8_scenarios (M : TrigModel) :
    ((200 : ℚ) / 2 * 0.95 = 95) ∧
    distanceFromCenter 95 dp3 0 = 42.75 ∧
    distanceFromCenter 95 dp3 1 = 57 ∧
    distanceFromCenter 95 dp3 2 = 71.25 ∧
    ((0.88 : ℚ) * 95 = 83.6) ∧
    ((42.75 : ℚ) < 83.6 ∧ (57 : ℚ) < 83.6 ∧ (71.25 : ℚ) < 83.6) ∧
    ((useSlicesWithEvents M c8Events 12 200 dp3).map
      (fun s => s.eventDots.map EventDot.id))
      = [[], [], [], [], [], [], [], [], [], ["c8a", "c8b", "c8c"], [], []] ∧
    distanceFromCenter 95 dp4 3 = 85.5 ∧
    ¬ ((85.5 : ℚ) < 83.6) ∧
    ((useSlicesWithEvents M c8Events 12 200 dp4).map
      (fun s => s.eventDots.map EventDot.id))
      = [[], [], [], [], [], [], [], [], [], ["c8a", "c8b", "c8c"], [], []] := by
  refine ⟨by norm_num, by norm_num [distanceFromCenter, dp3],
    by norm_num [distanceFromCenter, dp3], by norm_num [distanceFromCenter, dp3],
    by norm_num, ⟨by norm_num, by norm_num, by norm_num⟩, ?_,
    by norm_num [distanceFromCenter, dp4], by norm_num, ?_⟩
  · norm_num [useSlicesWithEvents, sliceFor, dotsAux, distanceFromCenter, dp3, c8Events,
      List.range, List.range.loop, List.filter]
  · norm_num [useSlicesWithEvents, sliceFor, dotsAux, distanceFromCenter, dp4, c8Events,
      List.range, List.range.loop, List.filter]

/-! ## C10: the emitted dots are an initial run of the candidates -/

theorem distanceFromCenter_le (radius : ℚ) (dp : DotPlacement) (hr : 0 ≤ radius)
    (hinc : 0 ≤ dp.radiusIncrementFactor) {j k : ℕ} (h : j ≤ k) :
    distanceFromCenter radius dp j ≤ distanceFromCenter radius dp k := by
  unfold distanceFromCenter
  have h1 : ((j : ℚ)) ≤ (k : ℚ) := by exact_mod_cast h
  exact mul_le_mul_of_nonneg_left
    (add_le_add_left (mul_le_mul_of_nonneg_right h1 hinc) _) hr

theorem dotsAux_eq_nil (M : TrigModel) (c r v m : ℚ) (dp : DotPlacement) :
    ∀ (idx : ℕ) (l : List CalendarEvent),
      (∀ j, idx ≤ j → ¬ distanceFromCenter r dp j < r * 0.88) →
      dotsAux M c r v m dp idx l = [] := by
  intro idx l
  induction l generalizing idx with
  | nil => intro _; rfl
  | cons ev rest ih =>
    intro hall
    simp only [dotsAux]
    rw [if_neg (hall idx le_rfl)]
    exact ih (idx + 1) (fun j hj => hall j (by omega))

theorem dotsAux_getElem_eq (M : TrigModel) (c r v m : ℚ) (dp : DotPlacement)
    (hmono : ∀ j k : ℕ, j ≤ k → distanceFromCenter r dp k < r * 0.88 →
      distanceFromCenter r dp j < r * 0.88) :
    ∀ (l : List CalendarEvent) (idx k : ℕ)
      (hk : k < (dotsAux M c r v m dp idx l).length),
      ∃ hk2 : k < l.length,
        (dotsAux M c r v m dp idx l)[k]
          = { id := (l[k]).id
              cx := c + distanceFromCenter r dp (idx + k) * M.cos m
              cy := c + distanceFromCenter r dp (idx + k) * M.sin m
              fill := (l[k]).color
              radius := v } := by
  intro l
  induction l with
  | nil => intro idx k hk; simp [dotsAux] at hk
  | cons ev rest ih =>
    intro idx k hk
    by_cases hc : distanceFromCenter r dp idx < r * 0.88
    · have hstep : dotsAux M c r v m dp idx (ev :: rest)
          = { id := ev.id
              cx := c + distanceFromCenter r dp idx * M.cos m
              cy := c + distanceFromCenter r dp idx * M.sin m
              fill := ev.color
              radius := v } :: dotsAux M c r v m dp (idx + 1) rest := by
        simp only [dotsAux]
        rw [if_pos hc]
      cases k with
      | zero =>
        refine ⟨by simp, ?_⟩
        simp only [hstep, List.getElem_cons_zero]
        simp
      | succ k2 =>
        have hk4 : k2 < (dotsAux M c r v m dp (idx + 1) rest).length := by
          rw [hstep] at hk
          simpa using hk
        obtain ⟨hk5, heq⟩ := ih (idx + 1) k2 hk4
        refine ⟨by simpa using hk5, ?_⟩
        simp only [hstep, List.getElem_cons_succ]
        have hidx : idx + (k2 + 1) = idx + 1 + k2 := by omega
        rw [hidx]
        exact heq
    · exfalso
      have hnil : dotsAux M c r v m dp idx (ev :: rest) = [] := by
        apply dotsAux_eq_nil
        intro j hj hjlt
        exact hc (hmono idx j hj hjlt)
      rw [hnil] at hk
      simp at hk

/-- C10: with a positive view box and a non-negative
`radiusIncrementFactor`, the dots of every slice are exactly an initial run
of the capped candidate list: the k-th emitted dot carries the id and the
color of the k-th event of the slice's `originalEvents`. -/
theorem c10_dots_align (M : TrigModel) (events : List CalendarEvent)
    (n : Int) (vbs : ℚ) (dp : DotPlacement)
    (hv : (0 : ℚ) < vbs) (hinc : 0 ≤ dp.radiusIncrementFactor)
    (i : ℕ) (h : i < (useSlicesWithEvents M events n vbs dp).length)
    (k : ℕ) (hk : k < ((useSlicesWithEvents M events n vbs dp)[i]).eventDots.length) :
    ∃ hk2 : k < ((useSlicesWithEvents M events n vbs dp)[i]).originalEvents.length,
      (((useSlicesWithEvents M events n vbs dp)[i]).eventDots[k]).id
        = (((useSlicesWithEvents M events n vbs dp)[i]).originalEvents[k]).id ∧
      (((useSlicesWithEvents M events n vbs dp)[i]).eventDots[k]).fill
        = (((useSlicesWithEvents M events n vbs dp)[i]).originalEvents[k]).color := by
  have hr : (0 : ℚ) < vbs / 2 * 0.95 := mul_pos (by linarith) (by norm_num)
  have hmono : ∀ j k2 : ℕ, j ≤ k2 →
      distanceFromCenter (vbs / 2 * 0.95) dp k2 < (vbs / 2 * 0.95) * 0.88 →
      distanceFromCenter (vbs / 2 * 0.95) dp j < (vbs / 2 * 0.95) * 0.88 :=
    fun j k2 hj hlt => lt_of_le_of_lt (distanceFromCenter_le _ _ hr.le hinc hj) hlt
  rw [getElem_useSlicesWithEvents] at hk
  simp only [getElem_useSlicesWithEvents, sliceFor] at hk ⊢
  obtain ⟨hk2, heq⟩ := dotsAux_getElem_eq M _ _ _ _ dp hmono _ 0 k hk
  have hk3 : k < (events.filter (fun e => e.sliceIndex == (i : Int))).length :=
    lt_of_lt_of_le hk2 (List.length_take_le' _ _)
  refine ⟨hk3, ?_, ?_⟩
  · simp only [heq]
    simp [List.getElem_take]
  · simp only [heq]
    simp [List.getElem_take]

/-- Bound fact used only by the C10 witness: slice 1 of the sample data
has at least one emitted dot. -/
theorem c10_bound1 :
    0 < ((useSlicesWithEvents trig0 sampleEvents4 4 200 dp3).get
        ⟨1, by decide⟩).eventDots.length := by
  norm_num [useSlicesWithEvents, sliceFor, dotsAux, distanceFromCenter, dp3, sampleEvents4,
    List.range, List.range.loop, List.filter]

/-- C10 witness: concrete instance on the FourWeekView sample data. -/
theorem c10_dots_align_witness :
    ∃ hk2 : 0 < ((useSlicesWithEvents trig0 sampleEvents4 4 200 dp3).get
        ⟨1, by decide⟩).originalEvents.length,
      (((useSlicesWithEvents trig0 sampleEvents4 4 200 dp3).get
          ⟨1, by decide⟩).eventDots.get ⟨0, c10_bound1⟩).id
        = (((useSlicesWithEvents trig0 sampleEvents4 4 200 dp3).get
          ⟨1, by decide⟩).originalEvents.get ⟨0, hk2⟩).id ∧
      (((useSlicesWithEvents trig0 sampleEvents4 4 200 dp3).get
          ⟨1, by decide⟩).eventDots.get ⟨0, c10_bound1⟩).fill
        = (((useSlicesWithEvents trig0 sampleEvents4 4 200 dp3).get
          ⟨1, by decide⟩).originalEvents.get ⟨0, hk2⟩).color :=
  c10_dots_align trig0 sampleEvents4 4 200 dp3 (by norm_num) (by norm_num [dp3])
    1 (by decide) 0 c10_bound1

end CalendarApp
